import Mathlib

/-!
# Verification of the OpenRan_Alocator network-design core

Shallow embedding of the two scripts of the repository:

* `src/main.py` (road-graph mode): constants and definitions in namespace `V1`.
  Distances are true shortest-path lengths over a road graph obtained from an
  external provider; an unreachable pair is encoded by the sentinel `1e9`.
* `src/unnamed/part_000` (= `main V2.py`, straight-line mode): constants and
  definitions in namespace `V2`.  Distances are geodesic distances scaled by the
  detour factor `1.3`; an RU whose distances to every DU candidate all exceed
  the fronthaul ceiling is moved to the `STI_UFBA` anchor and its row is
  recomputed.

External collaborators (the road-graph shortest-path query `nx.shortest_path_length`
and the geodesic distance `geopy.distance.geodesic`) are modelled as function
parameters, exactly as the spec's §6 describes their interfaces: the road graph
as `spl : Nat → Nat → Option ℚ` (`none` models the `NetworkXNoPath` exception),
the geodesic metric as `d : Loc → Loc → ℚ`.

Real-valued quantities of the scripts (Python floats) are embedded as `ℚ`.
Python dicts keyed by index pairs are embedded as lists of rows (the dict
`dist_ru_du[(i, j)]` is row `i`, entry `j`).
-/

/-- A (latitude, longitude) pair, the `Location` of the data model. -/
abbrev Loc : Type := ℚ × ℚ

namespace V1

/-- `MAX_DIST_FH_METROS = 2000` of `src/main.py` line 52. -/
def MAX_DIST_FH_METROS : ℚ := 2000

/-- `MAX_DIST_MH_METROS = 4000` of `src/main.py` line 55. -/
def MAX_DIST_MH_METROS : ℚ := 4000

/-- `CAP_DU = 7` of `src/main.py` line 58. -/
def CAP_DU : Nat := 7

/-- `CAP_CU = 6` of `src/main.py` line 59. -/
def CAP_CU : Nat := 6

/-- `COSTO_INST_DU = 1000` of `src/main.py` line 43. -/
def COSTO_INST_DU : ℚ := 1000

/-- `COSTO_INST_CU = 5000` of `src/main.py` line 44 (uniform for every CU candidate). -/
def COSTO_INST_CU : ℚ := 5000

/-- `COSTO_LINK_FH = 2` of `src/main.py` line 45. -/
def COSTO_LINK_FH : ℚ := 2

/-- `COSTO_LINK_MH = 1` of `src/main.py` line 46. -/
def COSTO_LINK_MH : ℚ := 1

end V1

namespace V2

/-- `MAX_DIST_FH_METROS = 3500` of `src/unnamed/part_000` line 47. -/
def MAX_DIST_FH_METROS : ℚ := 3500

/-- `MAX_DIST_MH_METROS = 9000` of `src/unnamed/part_000` line 48. -/
def MAX_DIST_MH_METROS : ℚ := 9000

/-- `CAP_DU = 8` of `src/unnamed/part_000` line 51. -/
def CAP_DU : Nat := 8

/-- `CAP_CU = 20` of `src/unnamed/part_000` line 52. -/
def CAP_CU : Nat := 20

/-- `COSTO_INST_DU = 2000` of `src/unnamed/part_000` line 41. -/
def COSTO_INST_DU : ℚ := 2000

/-- `COSTO_INST_CU_NOVA = 10000` of `src/unnamed/part_000` line 42. -/
def COSTO_INST_CU_NOVA : ℚ := 10000

/-- `COSTO_INST_CU_EXISTENTE = 0` of `src/unnamed/part_000` line 43. -/
def COSTO_INST_CU_EXISTENTE : ℚ := 0

/-- `COSTO_FIBRA_METRO = 1.5` of `src/unnamed/part_000` line 44. -/
def COSTO_FIBRA_METRO : ℚ := 1.5

end V2

/-- `LOCAIS_FIXOS["STI_UFBA"]` of `src/unnamed/part_000` line 22: the fallback
anchor used by the RU repair policy and a fixed pre-existing DU/CU site. -/
def STI_UFBA : Loc := (-13.0025, -38.5085)

/-- `LOCAIS_FIXOS["IFBA_BARBALHO"]` of `src/unnamed/part_000` line 23. -/
def IFBA_BARBALHO : Loc := (-12.9645, -38.5028)

/-- `get_street_distance` of `src/main.py` lines 64-75.  The external
road-graph query `nx.shortest_path_length(graph, node1, node2, weight)` is
modelled as `spl node1 node2 : Option ℚ`, where `none` models the
`NetworkXNoPath` exception that the source catches; on `none` the function
returns the sentinel `1e9` instead of propagating the exception. -/
def get_street_distance (spl : Nat → Nat → Option ℚ) (node1 node2 : Nat) : ℚ :=
  match spl node1 node2 with
  | some length => length
  | none => 1000000000

/-- The only check of `src/main.py` that runs before the `LpProblem` is built
(lines 97-101): the script calls `exit()` when the graph has fewer nodes than
`NUM_RUS + NUM_CANDIDATOS_DU + NUM_CANDIDATOS_CU`; it proceeds otherwise.
The distance matrix is never inspected by any pre-model check, which is why
this function ignores `dRD`. -/
def mainV1Precheck (nNodes nRus nDus nCus : Nat) (dRD : Nat × Nat → ℚ) : Bool :=
  !decide (nNodes < nRus + nDus + nCus)

/-- The row of RU->DU distances of one RU in `src/unnamed/part_000`
lines 125-128 and 135-137: geodesic distance to each DU candidate, scaled by
the detour factor `1.3` (`dist_real = dist * 1.3`). -/
def ruRow (d : Loc → Loc → ℚ) (dus : List Loc) (r : Loc) : List ℚ :=
  dus.map (fun c => d r c * (1.3 : ℚ))

/-- The flag `du_viavel_encontrada` of `src/unnamed/part_000` lines 124-130:
true iff some entry of the RU's row satisfies `dist_real <= MAX_DIST_FH_METROS`. -/
def ruViable (d : Loc → Loc → ℚ) (dus : List Loc) (r : Loc) : Bool :=
  (ruRow d dus r).any (fun v => decide (v ≤ V2.MAX_DIST_FH_METROS))

/-- The location an RU ends up with after its loop iteration in
`src/unnamed/part_000` lines 123-137: unchanged when some DU candidate is
within the fronthaul ceiling, otherwise reassigned to the `STI_UFBA` anchor
(line 134). -/
def ruFinalLoc (d : Loc → Loc → ℚ) (dus : List Loc) (r : Loc) : Loc :=
  if ruViable d dus r then r else STI_UFBA

/-- One iteration of the RU loop of `src/unnamed/part_000` lines 123-137 over
the state `(lista_rus, dist_ru_du, warnings)`.  The dict `dist_ru_du` is kept
as a list of rows (row `i` is written only by iteration `i`); the printed
`ALERTA` warnings are kept as the list of repaired RU indices.  When no DU
candidate is viable, `lista_rus[i]` is overwritten with the anchor (line 134)
and the row is recomputed from `lista_rus[i]` (lines 135-137). -/
def processRu (d : Loc → Loc → ℚ) (dus : List Loc)
    (st : List Loc × List (List ℚ) × List Nat) (i : Nat) :
    List Loc × List (List ℚ) × List Nat :=
  if ruViable d dus (st.1.getD i STI_UFBA) then
    (st.1, st.2.1 ++ [ruRow d dus (st.1.getD i STI_UFBA)], st.2.2)
  else
    (st.1.set i STI_UFBA,
     st.2.1 ++ [ruRow d dus ((st.1.set i STI_UFBA).getD i STI_UFBA)],
     st.2.2 ++ [i])

/-- The full RU->DU distance-matrix loop of `src/unnamed/part_000`
lines 123-137 (`for i in idx_ru: ...`), returning the possibly-repaired
`lista_rus`, the matrix `dist_ru_du` as a list of rows, and the list of
repaired RU indices (the logged warnings). -/
def buildRuDu (d : Loc → Loc → ℚ) (rus dus : List Loc) :
    List Loc × List (List ℚ) × List Nat :=
  (List.range rus.length).foldl (processRu d dus) (rus, [], [])

/-- The DU->CU distance-matrix loop of `src/unnamed/part_000` lines 140-144:
`dist_du_cu[(j, k)] = geodesic(candidatos_du[j], lista_candidatos_cu[k]) * 1.3`. -/
def buildDuCu (d : Loc → Loc → ℚ) (dus cus : List Loc) : List (List ℚ) :=
  dus.map (fun du => cus.map (fun cu => d du cu * (1.3 : ℚ)))

/-- Section 4 of `src/unnamed/part_000` as a whole: the RU->DU loop (with the
repair policy) followed by the DU->CU loop.  The DU->CU loop reads only
`candidatos_du` and `lista_candidatos_cu`, never `lista_rus`. -/
def buildMatrices (d : Loc → Loc → ℚ) (rus dus cus : List Loc) :
    (List Loc × List (List ℚ) × List Nat) × List (List ℚ) :=
  (buildRuDu d rus dus, buildDuCu d dus cus)

/-- The binary decision variables of both scripts: `y` (DU open), `z` (CU
open), `x` (RU->DU link), `w` (DU->CU link). -/
structure Assignment where
  y : Nat → Bool
  z : Nat → Bool
  x : Nat × Nat → Bool
  w : Nat × Nat → Bool

/-- The constraint set of the `LpProblem` of both scripts, parameterized by
the capacities and distance ceilings (`src/main.py` lines 193-231,
`src/unnamed/part_000` lines 175-199).  An `Assignment` satisfies `Feasible`
iff it satisfies every constraint the script adds:
1. each RU is served by exactly one DU (`== 1`);
2. DU capacity (`<= CAP_DU * y[j]`);
3. a link RU->DU requires the DU active (`x[i,j] <= y[j]`);
4. each active DU connects to exactly one CU (`== y[j]`);
5. CU capacity (`<= CAP_CU * z[k]`);
6. a link DU->CU requires the CU active (`w[j,k] <= z[k]`);
7. `x[i,j] == 0` for every pair with `dist_ru_du[i,j] > MAX_DIST_FH`;
8. `w[j,k] == 0` for every pair with `dist_du_cu[j,k] > MAX_DIST_MH`. -/
def Feasible (nRu nDu nCu capDU capCU : Nat) (maxFH maxMH : ℚ)
    (dRD dDC : Nat × Nat → ℚ) (a : Assignment) : Prop :=
  (∀ i, i < nRu → ((List.range nDu).map (fun j => (a.x (i, j)).toNat)).sum = 1) ∧
  (∀ j, j < nDu → ((List.range nRu).map (fun i => (a.x (i, j)).toNat)).sum ≤ capDU * (a.y j).toNat) ∧
  (∀ i, i < nRu → ∀ j, j < nDu → (a.x (i, j)).toNat ≤ (a.y j).toNat) ∧
  (∀ j, j < nDu → ((List.range nCu).map (fun k => (a.w (j, k)).toNat)).sum = (a.y j).toNat) ∧
  (∀ k, k < nCu → ((List.range nDu).map (fun j => (a.w (j, k)).toNat)).sum ≤ capCU * (a.z k).toNat) ∧
  (∀ j, j < nDu → ∀ k, k < nCu → (a.w (j, k)).toNat ≤ (a.z k).toNat) ∧
  (∀ i, i < nRu → ∀ j, j < nDu → maxFH < dRD (i, j) → a.x (i, j) = false) ∧
  (∀ j, j < nDu → ∀ k, k < nCu → maxMH < dDC (j, k) → a.w (j, k) = false)

/-- The model of `src/main.py` (its constants). -/
def FeasibleV1 (nRu nDu nCu : Nat) (dRD dDC : Nat × Nat → ℚ) (a : Assignment) : Prop :=
  Feasible nRu nDu nCu V1.CAP_DU V1.CAP_CU V1.MAX_DIST_FH_METROS V1.MAX_DIST_MH_METROS dRD dDC a

/-- The model of `src/unnamed/part_000` (its constants). -/
def FeasibleV2 (nRu nDu nCu : Nat) (dRD dDC : Nat × Nat → ℚ) (a : Assignment) : Prop :=
  Feasible nRu nDu nCu V2.CAP_DU V2.CAP_CU V2.MAX_DIST_FH_METROS V2.MAX_DIST_MH_METROS dRD dDC a

/-- `custo_instalacao_du` of `src/unnamed/part_000` line 160:
`lpSum(COSTO_INST_DU * y[j] for j in idx_du)`, evaluated at the rational
values `y` the solver returns for the variables. -/
def custo_dus (nDu : Nat) (y : Nat → ℚ) : ℚ :=
  ((List.range nDu).map (fun j => V2.COSTO_INST_DU * y j)).sum

/-- `custo_cus` of `src/unnamed/part_000` lines 161-167: the accumulation loop
`for k in idx_cu: if lista_candidatos_cu[k] in candidatos_cu_fixos:
custo_cus += COSTO_INST_CU_EXISTENTE * z[k] else: += COSTO_INST_CU_NOVA * z[k]`. -/
def custo_cus (listaCu fixos : List Loc) (z : Nat → ℚ) : ℚ :=
  (List.range listaCu.length).foldl
    (fun acc k =>
      if listaCu.getD k STI_UFBA ∈ fixos then acc + V2.COSTO_INST_CU_EXISTENTE * z k
      else acc + V2.COSTO_INST_CU_NOVA * z k) 0

/-- `custo_fh` of `src/unnamed/part_000` line 169:
`lpSum(dist_ru_du[i, j] * COSTO_FIBRA_METRO * x[i, j] for i in idx_ru for j in idx_du)`. -/
def custo_fh (nRu nDu : Nat) (dRD : Nat × Nat → ℚ) (x : Nat × Nat → ℚ) : ℚ :=
  ((List.range nRu).map (fun i =>
    ((List.range nDu).map (fun j => dRD (i, j) * V2.COSTO_FIBRA_METRO * x (i, j))).sum)).sum

/-- `custo_mh` of `src/unnamed/part_000` line 170. -/
def custo_mh (nDu nCu : Nat) (dDC : Nat × Nat → ℚ) (w : Nat × Nat → ℚ) : ℚ :=
  ((List.range nDu).map (fun j =>
    ((List.range nCu).map (fun k => dDC (j, k) * V2.COSTO_FIBRA_METRO * w (j, k))).sum)).sum

/-- The objective `custo_dus + custo_cus + custo_fh + custo_mh` of
`src/unnamed/part_000` line 172, as a function of the rational value each
binary variable carries. -/
def objectiveV2 (nRu : Nat) (listaCu fixos : List Loc) (nDu : Nat)
    (dRD dDC : Nat × Nat → ℚ) (y z : Nat → ℚ) (x w : Nat × Nat → ℚ) : ℚ :=
  custo_dus nDu y + custo_cus listaCu fixos z + custo_fh nRu nDu dRD x
    + custo_mh nDu listaCu.length dDC w

/-- The cost the script reports on an Optimal outcome
(`pulp.value(prob.objective)`, `src/unnamed/part_000` line 208 and
`src/main.py` line 251): the objective expression evaluated at the raw
variable values the solver returned, with no thresholding. -/
def reportedCost (nRu : Nat) (listaCu fixos : List Loc) (nDu : Nat)
    (dRD dDC : Nat × Nat → ℚ) (y z : Nat → ℚ) (x w : Nat × Nat → ℚ) : ℚ :=
  objectiveV2 nRu listaCu fixos nDu dRD dDC y z x w

/-- The binary-decision threshold of the extractor of `src/unnamed/part_000`
(`varValue > 0.9`, lines 222-242): the 0/1 indicator of a raw variable value. -/
def thresholdVal (q : ℚ) : ℚ := if (0.9 : ℚ) < q then 1 else 0

/-- The cost the spec claims is reported: the four objective summands
re-evaluated at the extracted discrete solution, i.e. at the 0/1 indicators
`thresholdVal` of the raw variable values. -/
def recomputedCost (nRu : Nat) (listaCu fixos : List Loc) (nDu : Nat)
    (dRD dDC : Nat × Nat → ℚ) (y z : Nat → ℚ) (x w : Nat × Nat → ℚ) : ℚ :=
  objectiveV2 nRu listaCu fixos nDu dRD dDC
    (fun j => thresholdVal (y j)) (fun k => thresholdVal (z k))
    (fun p => thresholdVal (x p)) (fun p => thresholdVal (w p))

/-- The open-DU extraction of `src/main.py` lines 254-258: `d_ativas` collects
the candidates with `y[j].varValue == 1`. -/
def d_ativasV1 (nDu : Nat) (yv : Nat → ℚ) : List Nat :=
  (List.range nDu).filter (fun j => decide (yv j = 1))

/-- The active RU->DU link extraction of `src/main.py` lines 270-274:
`conexoes_ru_du` collects the pairs with `x[i, j].varValue == 1`. -/
def conexoesRuDuV1 (nRu nDu : Nat) (xv : Nat × Nat → ℚ) : List (Nat × Nat) :=
  ((List.range nRu).flatMap (fun i => (List.range nDu).map (fun j => (i, j)))).filter
    (fun p => decide (xv p = 1))

/-- The open-DU extraction of `src/unnamed/part_000` lines 227-228: the DU
candidates with `y[j].varValue > 0.9`. -/
def d_ativasV2 (nDu : Nat) (yv : Nat → ℚ) : List Nat :=
  (List.range nDu).filter (fun j => decide ((0.9 : ℚ) < yv j))

/-- The active RU->DU link extraction of `src/unnamed/part_000` lines 241-242:
the nested loops `for i in idx_ru: for j in idx_du: if x[(i, j)].varValue > 0.9`. -/
def conexoesRuDuV2 (nRu nDu : Nat) (xv : Nat × Nat → ℚ) : List (Nat × Nat) :=
  (List.range nRu).flatMap (fun i =>
    ((List.range nDu).filter (fun j => decide ((0.9 : ℚ) < xv (i, j)))).map (fun j => (i, j)))

/-- A concrete distance function for witnesses: a scaled squared-euclidean
metric, so that `dW p p = 0` as for the geodesic distance. -/
def dW : Loc → Loc → ℚ := fun p q =>
  10000 * ((p.1 - q.1) * (p.1 - q.1) + (p.2 - q.2) * (p.2 - q.2))

/-- Witness RU list: RU 0 is far from every DU candidate (it gets repaired),
RU 1 sits on the anchor (it does not). -/
def rusW : List Loc := [((1 : ℚ), (2 : ℚ)), STI_UFBA]

/-- Witness DU-candidate list; it contains the `STI_UFBA` anchor, as
`candidatos_du` always does (`src/unnamed/part_000` line 98). -/
def dusW : List Loc := [STI_UFBA]

/-- Witness CU-candidate list (`lista_candidatos_cu` style). -/
def listaCuW : List Loc := [STI_UFBA, ((1 : ℚ), (2 : ℚ))]

/-- Witness pre-existing CU list, as `candidatos_cu_fixos` of
`src/unnamed/part_000` line 102. -/
def fixosW : List Loc := [STI_UFBA, IFBA_BARBALHO]

/-- The all-ones assignment, used by witnesses on 1x1x1 instances. -/
def aAll : Assignment := ⟨fun _ => true, fun _ => true, fun _ => true, fun _ => true⟩

/-- A constant small fronthaul distance matrix for witnesses. -/
def dSmallFH : Nat × Nat → ℚ := fun _ => 100

/-- A constant small midhaul distance matrix for witnesses. -/
def dSmallMH : Nat × Nat → ℚ := fun _ => 200

/-- A distance matrix every entry of which is the sentinel `1e9` returned by
`get_street_distance` for disconnected pairs. -/
def sentinelRow : Nat × Nat → ℚ := fun _ => 1000000000

/-- A repositioned witness location for the frame theorem. -/
def vW : Loc := ((5 : ℚ), (5 : ℚ))

/-- Shortest-path oracle for the `get_street_distance` witness: a path of
length 0 from a node to itself, no path otherwise. -/
def splW : Nat → Nat → Option ℚ := fun a b => if a = b then some 0 else none

/-- Writing index `i` of a list and reading it back (with the written value as
default) yields the written value, in or out of bounds. -/
theorem getD_set_self {α : Type} : ∀ (l : List α) (i : Nat) (a : α), (l.set i a).getD i a = a := by
  intro l
  induction l with
  | nil => intro i a; cases i <;> simp
  | cons hd tl ih =>
    intro i a
    cases i with
    | zero => simp
    | succ n => simpa using ih n a

/-- Writing index `i` of a list does not change any other index. -/
theorem getD_set_ne {α : Type} :
    ∀ (l : List α) (i j : Nat) (a dflt : α), i ≠ j → (l.set i a).getD j dflt = l.getD j dflt := by
  intro l
  induction l with
  | nil => intro i j a dflt h; simp
  | cons hd tl ih =>
    intro i j a dflt h
    cases i with
    | zero =>
      cases j with
      | zero => exact absurd rfl h
      | succ m => simp
    | succ n =>
      cases j with
      | zero => simp
      | succ m => simpa using ih n m a dflt (fun he => h (by rw [he]))

/-- Reading a mapped list at an in-bounds index. -/
theorem getD_map {α β : Type} (f : α → β) :
    ∀ (l : List α) (i : Nat) (dflt : α) (b0 : β), i < l.length →
      (l.map f).getD i b0 = f (l.getD i dflt) := by
  intro l
  induction l with
  | nil => intro i dflt b0 hi; simp at hi
  | cons hd tl ih =>
    intro i dflt b0 hi
    cases i with
    | zero => simp
    | succ n =>
      simp only [List.map_cons, List.getD_cons_succ]
      exact ih n dflt b0 (by simpa using hi)

/-- Indexing a list over the range of its length is the same as mapping it. -/
theorem map_getD_range {α β : Type} (f : α → β) (dflt : α) :
    ∀ l : List α, (List.range l.length).map (fun i => f (l.getD i dflt)) = l.map f := by
  intro l
  induction l with
  | nil => rfl
  | cons hd tl ih =>
    rw [List.length_cons, List.range_succ_eq_map, List.map_cons, List.map_map]
    simp only [Function.comp_def, List.getD_cons_zero, List.getD_cons_succ]
    rw [ih, List.map_cons]

/-- The sum of the 0/1 indicators of a Boolean predicate counts the elements
satisfying it. -/
theorem sum_map_toNat_eq_countP (p : Nat → Bool) :
    ∀ l : List Nat, (l.map (fun j => (p j).toNat)).sum = l.countP p := by
  intro l
  induction l with
  | nil => rfl
  | cons hd tl ih =>
    rw [List.map_cons, List.sum_cons, ih, List.countP_cons]
    cases hp : p hd <;> simp [hp] <;> omega

/-- A fold that only accumulates additions is the sum of the mapped list. -/
theorem foldl_add_eq {α : Type} (g : α → ℚ) :
    ∀ (l : List α) (a : ℚ), l.foldl (fun acc k => acc + g k) a = a + (l.map g).sum := by
  intro l
  induction l with
  | nil => intro a; simp
  | cons hd tl ih => intro a; simp [ih, add_assoc]

/-- Flipping one coordinate of the value vector from 0 to 1 changes a
coefficient-times-value sum by exactly that coefficient. -/
theorem sum_update_diff (c z : Nat → ℚ) :
    ∀ n k : Nat, k < n →
      ((List.range n).map (fun j => c j * Function.update z k 1 j)).sum
        - ((List.range n).map (fun j => c j * Function.update z k 0 j)).sum = c k := by
  intro n
  induction n with
  | zero => intro k hk; exact absurd hk (Nat.not_lt_zero k)
  | succ m ih =>
    intro k hk
    rw [List.range_succ, List.map_append, List.map_append, List.sum_append, List.sum_append]
    by_cases hkm : k = m
    · subst hkm
      have hpre : ∀ b : ℚ,
          (List.range k).map (fun j => c j * Function.update z k b j)
            = (List.range k).map (fun j => c j * z j) := by
        intro b
        refine List.map_congr_left ?_
        intro j hj
        rw [Function.update_noteq (Nat.ne_of_lt (List.mem_range.mp hj))]
      rw [hpre 1, hpre 0]
      simp only [List.map_cons, List.map_nil, List.sum_cons, List.sum_nil,
        Function.update_same]
      ring
    · have hk' : k < m := Nat.lt_of_le_of_ne (Nat.lt_succ_iff.mp hk) hkm
      have hne : m ≠ k := fun h => hkm h.symm
      have hlast1 : Function.update z k (1 : ℚ) m = z m := Function.update_noteq hne 1 z
      have hlast0 : Function.update z k (0 : ℚ) m = z m := Function.update_noteq hne 0 z
      have hih := ih k hk'
      simp only [List.map_cons, List.map_nil, List.sum_cons, List.sum_nil, hlast1, hlast0]
      linarith

/-- The `custo_cus` accumulation loop written as a coefficient-times-value sum. -/
theorem custo_cus_eq_sum (listaCu fixos : List Loc) (z : Nat → ℚ) :
    custo_cus listaCu fixos z
      = ((List.range listaCu.length).map (fun k =>
          (if listaCu.getD k STI_UFBA ∈ fixos then V2.COSTO_INST_CU_EXISTENTE
           else V2.COSTO_INST_CU_NOVA) * z k)).sum := by
  unfold custo_cus
  have hstep : (fun (acc : ℚ) (k : Nat) =>
      if listaCu.getD k STI_UFBA ∈ fixos then acc + V2.COSTO_INST_CU_EXISTENTE * z k
      else acc + V2.COSTO_INST_CU_NOVA * z k)
    = fun (acc : ℚ) (k : Nat) =>
      acc + (if listaCu.getD k STI_UFBA ∈ fixos then V2.COSTO_INST_CU_EXISTENTE
             else V2.COSTO_INST_CU_NOVA) * z k := by
    funext acc k
    by_cases hmem : listaCu.getD k STI_UFBA ∈ fixos
    · rw [if_pos hmem, if_pos hmem]
    · rw [if_neg hmem, if_neg hmem]
  rw [hstep, foldl_add_eq, zero_add]

/-- The threshold indicator is the identity on exact 0/1 values. -/
theorem thresholdVal_01 {q : ℚ} (h : q = 0 ∨ q = 1) : thresholdVal q = q := by
  rcases h with rfl | rfl <;> norm_num [thresholdVal]

/-- If the anchor is one of the DU candidates and is at distance 0 from
itself, the anchor location always has a viable DU candidate. -/
theorem ruViable_anchor (d : Loc → Loc → ℚ) (dus : List Loc)
    (hanchor : STI_UFBA ∈ dus) (hzero : d STI_UFBA STI_UFBA = 0) :
    ruViable d dus STI_UFBA = true := by
  unfold ruViable ruRow
  rw [List.any_eq_true]
  refine ⟨d STI_UFBA STI_UFBA * 1.3, List.mem_map.mpr ⟨STI_UFBA, hanchor, rfl⟩, ?_⟩
  rw [hzero]
  norm_num [V2.MAX_DIST_FH_METROS]

/-- A viable RU keeps its location. -/
theorem ruFinalLoc_of_viable {d : Loc → Loc → ℚ} {dus : List Loc} {r : Loc}
    (hv : ruViable d dus r = true) : ruFinalLoc d dus r = r := by
  unfold ruFinalLoc
  rw [if_pos hv]

/-- A non-viable RU is moved to the anchor. -/
theorem ruFinalLoc_of_not_viable {d : Loc → Loc → ℚ} {dus : List Loc} {r : Loc}
    (hv : ruViable d dus r = false) : ruFinalLoc d dus r = STI_UFBA := by
  unfold ruFinalLoc
  rw [hv]
  rfl

/-- Filtering a singleton whose element satisfies the predicate. -/
theorem filter_singleton_of_true {p : Nat → Bool} {n : Nat} (h : p n = true) :
    List.filter p [n] = [n] := by
  simp [h]

/-- Filtering a singleton whose element fails the predicate. -/
theorem filter_singleton_of_false {p : Nat → Bool} {n : Nat} (h : p n = false) :
    List.filter p [n] = [] := by
  simp [h]

/-- Invariant of the RU loop of `src/unnamed/part_000` after `m` iterations:
the rows written so far are those of the (per-RU) final locations, the warning
list holds exactly the non-viable indices so far, and `lista_rus` holds the
final location at every processed index and the original one elsewhere. -/
theorem buildRuDu_aux (d : Loc → Loc → ℚ) (dus rus : List Loc) :
    ∀ m : Nat,
      ((List.range m).foldl (processRu d dus) (rus, ([] : List (List ℚ)), ([] : List Nat))).2.1
          = (List.range m).map (fun i => ruRow d dus (ruFinalLoc d dus (rus.getD i STI_UFBA)))
        ∧ ((List.range m).foldl (processRu d dus) (rus, [], [])).2.2
          = (List.range m).filter (fun i => !ruViable d dus (rus.getD i STI_UFBA))
        ∧ ∀ j : Nat, ((List.range m).foldl (processRu d dus) (rus, [], [])).1.getD j STI_UFBA
          = if j < m then ruFinalLoc d dus (rus.getD j STI_UFBA) else rus.getD j STI_UFBA := by
  intro m
  induction m with
  | zero =>
    refine ⟨rfl, rfl, fun j => ?_⟩
    simp
  | succ n ih =>
    obtain ⟨ih1, ih2, ih3⟩ := ih
    have hstep : (List.range (n + 1)).foldl (processRu d dus)
          (rus, ([] : List (List ℚ)), ([] : List Nat))
        = processRu d dus
            ((List.range n).foldl (processRu d dus) (rus, [], [])) n := by
      rw [List.range_succ, List.foldl_append, List.foldl_cons, List.foldl_nil]
    set S := (List.range n).foldl (processRu d dus)
      (rus, ([] : List (List ℚ)), ([] : List Nat)) with hS
    have hSn : S.1.getD n STI_UFBA = rus.getD n STI_UFBA := by
      have h := ih3 n
      simpa using h
    by_cases hv : ruViable d dus (rus.getD n STI_UFBA) = true
    · have hP : processRu d dus S n
          = (S.1, S.2.1 ++ [ruRow d dus (rus.getD n STI_UFBA)], S.2.2) := by
        unfold processRu
        rw [hSn, if_pos hv]
      refine ⟨?_, ?_, ?_⟩
      · rw [hstep, hP]
        show S.2.1 ++ _ = _
        rw [ih1, List.range_succ, List.map_append, List.map_cons, List.map_nil,
          ruFinalLoc_of_viable hv]
      · rw [hstep, hP]
        show S.2.2 = _
        rw [ih2, List.range_succ, List.filter_append,
          filter_singleton_of_false (by rw [hv]; rfl), List.append_nil]
      · intro j
        rw [hstep, hP]
        show S.1.getD j STI_UFBA = _
        rw [ih3 j]
        by_cases hj : j < n
        · rw [if_pos hj, if_pos (Nat.lt_succ_of_lt hj)]
        · by_cases hj' : j = n
          · subst hj'
            rw [if_neg hj, if_pos (Nat.lt_succ_self j), ruFinalLoc_of_viable hv]
          · have hj2 : ¬ j < n + 1 := by omega
            rw [if_neg hj, if_neg hj2]
    · have hv' : ruViable d dus (rus.getD n STI_UFBA) = false := by
        simpa using hv
      have hanchor : (S.1.set n STI_UFBA).getD n STI_UFBA = STI_UFBA :=
        getD_set_self S.1 n STI_UFBA
      have hP : processRu d dus S n
          = (S.1.set n STI_UFBA, S.2.1 ++ [ruRow d dus STI_UFBA], S.2.2 ++ [n]) := by
        unfold processRu
        rw [hSn, if_neg hv, hanchor]
      refine ⟨?_, ?_, ?_⟩
      · rw [hstep, hP]
        show S.2.1 ++ _ = _
        rw [ih1, List.range_succ, List.map_append, List.map_cons, List.map_nil,
          ruFinalLoc_of_not_viable hv']
      · rw [hstep, hP]
        show S.2.2 ++ [n] = _
        rw [ih2, List.range_succ, List.filter_append,
          filter_singleton_of_true (by rw [hv']; rfl)]
      · intro j
        rw [hstep, hP]
        show (S.1.set n STI_UFBA).getD j STI_UFBA = _
        by_cases hj' : j = n
        · subst hj'
          rw [getD_set_self S.1 j STI_UFBA, if_pos (Nat.lt_succ_self j),
            ruFinalLoc_of_not_viable hv']
        · rw [getD_set_ne S.1 n j STI_UFBA STI_UFBA (fun h => hj' h.symm), ih3 j]
          by_cases hj : j < n
          · rw [if_pos hj, if_pos (Nat.lt_succ_of_lt hj)]
          · have hj2 : ¬ j < n + 1 := by omega
            rw [if_neg hj, if_neg hj2]

/-- Closed form of the matrix the RU loop produces: row `i` is the row of the
final (possibly repaired) location of RU `i`. -/
theorem buildRuDu_rows (d : Loc → Loc → ℚ) (rus dus : List Loc) :
    (buildRuDu d rus dus).2.1 = rus.map (fun r => ruRow d dus (ruFinalLoc d dus r)) :=
  ((buildRuDu_aux d dus rus rus.length).1).trans
    (map_getD_range (fun r => ruRow d dus (ruFinalLoc d dus r)) STI_UFBA rus)

/-- Closed form of the warning list: exactly the RU indices with no viable DU
candidate from their original location. -/
theorem buildRuDu_rep (d : Loc → Loc → ℚ) (rus dus : List Loc) :
    (buildRuDu d rus dus).2.2
      = (List.range rus.length).filter (fun i => !ruViable d dus (rus.getD i STI_UFBA)) :=
  (buildRuDu_aux d dus rus rus.length).2.1

/-- Closed form of the final RU list: each entry is its own final location. -/
theorem buildRuDu_lista (d : Loc → Loc → ℚ) (rus dus : List Loc) (j : Nat) :
    (buildRuDu d rus dus).1.getD j STI_UFBA
      = if j < rus.length then ruFinalLoc d dus (rus.getD j STI_UFBA)
        else rus.getD j STI_UFBA :=
  (buildRuDu_aux d dus rus rus.length).2.2 j

/-- From the coverage constraint, some RU->DU link of RU `i` is active. -/
theorem exists_true_of_sum_one (p : Nat → Bool) (n : Nat)
    (h : ((List.range n).map (fun j => (p j).toNat)).sum = 1) :
    ∃ j, j < n ∧ p j = true := by
  rw [sum_map_toNat_eq_countP] at h
  have hpos : 0 < (List.range n).countP p := by omega
  obtain ⟨j, hj, hpj⟩ := List.countP_pos_iff.mp hpos
  exact ⟨j, List.mem_range.mp hj, hpj⟩

/-- A distance row beyond the fronthaul ceiling at every DU candidate makes
the model infeasible: the coverage constraint of that RU conflicts with the
distance-forcing constraints. -/
theorem infeasible_of_sentinel_row (nRu nDu nCu capDU capCU : Nat) (maxFH maxMH : ℚ)
    (dRD dDC : Nat × Nat → ℚ) (i : Nat) (hi : i < nRu)
    (hrow : ∀ j, j < nDu → maxFH < dRD (i, j)) (a : Assignment) :
    ¬ Feasible nRu nDu nCu capDU capCU maxFH maxMH dRD dDC a := by
  intro hFe
  obtain ⟨j, hj, hx⟩ := exists_true_of_sum_one (fun j => a.x (i, j)) nDu (hFe.1 i hi)
  have h0 := hFe.2.2.2.2.2.2.1 i hi j hj (hrow j hj)
  rw [hx] at h0
  exact Bool.noConfusion h0

/-- A concrete 1 RU x 1 DU x 1 CU instance on which the all-ones assignment
satisfies every constraint of the V2 model. -/
theorem feasible_small : Feasible 1 1 1 V2.CAP_DU V2.CAP_CU V2.MAX_DIST_FH_METROS
    V2.MAX_DIST_MH_METROS dSmallFH dSmallMH aAll := by
  refine ⟨?_, ?_, ?_, ?_, ?_, ?_, ?_, ?_⟩
  · intro i hi; simp [aAll, List.range_succ]
  · intro j hj; simp [aAll, List.range_succ, V2.CAP_DU]
  · intro i hi j hj; simp [aAll]
  · intro j hj; simp [aAll, List.range_succ]
  · intro k hk; simp [aAll, List.range_succ, V2.CAP_CU]
  · intro j hj k hk; simp [aAll]
  · intro i hi j hj hd; exfalso; norm_num [dSmallFH, V2.MAX_DIST_FH_METROS] at hd
  · intro j hj k hk hd; exfalso; norm_num [dSmallMH, V2.MAX_DIST_MH_METROS] at hd

/-- C1: the model of both scripts contains the forcing constraint
`link_RU_DU[i,j] = 0` whenever `dist_RU_DU[i,j] > MAX_DIST_FH` and
`link_DU_CU[j,k] = 0` whenever `dist_DU_CU[j,k] > MAX_DIST_MH` (the last two
conjuncts of `Feasible`); consequently, in every feasible assignment - hence
in every solution a solver can return - no active link's distance exceeds its
tier's ceiling. -/
theorem c1_active_links_within_ceiling (nRu nDu nCu capDU capCU : Nat)
    (maxFH maxMH : ℚ) (dRD dDC : Nat × Nat → ℚ) (a : Assignment)
    (h : Feasible nRu nDu nCu capDU capCU maxFH maxMH dRD dDC a) :
    (∀ i, i < nRu → ∀ j, j < nDu → a.x (i, j) = true → dRD (i, j) ≤ maxFH)
    ∧ (∀ j, j < nDu → ∀ k, k < nCu → a.w (j, k) = true → dDC (j, k) ≤ maxMH) := by
  constructor
  · intro i hi j hj hx
    by_contra hgt
    have h0 := h.2.2.2.2.2.2.1 i hi j hj (not_le.mp hgt)
    rw [hx] at h0
    exact Bool.noConfusion h0
  · intro j hj k hk hw
    by_contra hgt
    have h0 := h.2.2.2.2.2.2.2 j hj k hk (not_le.mp hgt)
    rw [hw] at h0
    exact Bool.noConfusion h0

/-- Witness for C1 on the concrete feasible 1x1x1 instance. -/
theorem c1_witness :
    dSmallFH (0, 0) ≤ V2.MAX_DIST_FH_METROS ∧ dSmallMH (0, 0) ≤ V2.MAX_DIST_MH_METROS := by
  have h := c1_active_links_within_ceiling 1 1 1 V2.CAP_DU V2.CAP_CU V2.MAX_DIST_FH_METROS
    V2.MAX_DIST_MH_METROS dSmallFH dSmallMH aAll feasible_small
  exact ⟨h.1 0 (by omega) 0 (by omega) rfl, h.2 0 (by omega) 0 (by omega) rfl⟩

/-- C2: the model of both scripts contains, for every RU index `i`, the
equality constraint `sum of link_RU_DU[i,j] over j = 1` (the first conjunct of
`Feasible`); hence in every feasible assignment each RU index appears in
exactly one active RU->DU link. -/
theorem c2_each_ru_exactly_one_link (nRu nDu nCu capDU capCU : Nat)
    (maxFH maxMH : ℚ) (dRD dDC : Nat × Nat → ℚ) (a : Assignment)
    (h : Feasible nRu nDu nCu capDU capCU maxFH maxMH dRD dDC a) :
    ∀ i, i < nRu → ((List.range nDu).filter (fun j => a.x (i, j))).length = 1 := by
  intro i hi
  have h1 := h.1 i hi
  rw [sum_map_toNat_eq_countP] at h1
  rwa [List.countP_eq_length_filter] at h1

/-- Witness for C2 on the concrete feasible 1x1x1 instance. -/
theorem c2_witness : ((List.range 1).filter (fun j => aAll.x (0, j))).length = 1 :=
  c2_each_ru_exactly_one_link 1 1 1 V2.CAP_DU V2.CAP_CU V2.MAX_DIST_FH_METROS
    V2.MAX_DIST_MH_METROS dSmallFH dSmallMH aAll feasible_small 0 (by omega)

/-- C3 counterexample: both scripts report `pulp.value(prob.objective)` - the
objective evaluated at the raw solver values - not a recomputation from the
thresholded extracted solution.  On raw values of `0.95` (selected by the
`> 0.9` extractor) the two quantities differ. -/
theorem c3_cex :
    reportedCost 1 listaCuW fixosW 1 dSmallFH dSmallMH
        (fun _ => 0.95) (fun _ => 0.95) (fun _ => 0.95) (fun _ => 0.95)
      ≠ recomputedCost 1 listaCuW fixosW 1 dSmallFH dSmallMH
        (fun _ => 0.95) (fun _ => 0.95) (fun _ => 0.95) (fun _ => 0.95) := by
  norm_num [reportedCost, recomputedCost, objectiveV2, custo_dus, custo_cus, custo_fh,
    custo_mh, thresholdVal, listaCuW, fixosW, dSmallFH, dSmallMH, V2.COSTO_INST_DU,
    V2.COSTO_INST_CU_NOVA, V2.COSTO_INST_CU_EXISTENTE, V2.COSTO_FIBRA_METRO,
    List.range_succ, STI_UFBA, IFBA_BARBALHO, Prod.mk.injEq]

/-- C3 amended: the reported total is the objective evaluated at the solver's
raw variable values; it coincides with the sum of the four summands recomputed
from the thresholded extracted solution exactly when every raw value is an
exact 0 or 1. -/
theorem c3_reported_cost_is_raw_objective (nRu : Nat) (listaCu fixos : List Loc)
    (nDu : Nat) (dRD dDC : Nat × Nat → ℚ) (y z : Nat → ℚ) (x w : Nat × Nat → ℚ)
    (hy : ∀ j, y j = 0 ∨ y j = 1) (hz : ∀ k, z k = 0 ∨ z k = 1)
    (hx : ∀ p, x p = 0 ∨ x p = 1) (hw : ∀ p, w p = 0 ∨ w p = 1) :
    reportedCost nRu listaCu fixos nDu dRD dDC y z x w
      = recomputedCost nRu listaCu fixos nDu dRD dDC y z x w := by
  unfold reportedCost recomputedCost
  have ey : (fun j => thresholdVal (y j)) = y := funext fun j => thresholdVal_01 (hy j)
  have ez : (fun k => thresholdVal (z k)) = z := funext fun k => thresholdVal_01 (hz k)
  have ex : (fun p => thresholdVal (x p)) = x := funext fun p => thresholdVal_01 (hx p)
  have ew : (fun p => thresholdVal (w p)) = w := funext fun p => thresholdVal_01 (hw p)
  rw [ey, ez, ex, ew]

/-- Witness for C3 (amended) on exact 0/1 values. -/
theorem c3_witness :
    reportedCost 1 listaCuW fixosW 1 dSmallFH dSmallMH
        (fun _ => 1) (fun _ => 1) (fun _ => 1) (fun _ => 1)
      = recomputedCost 1 listaCuW fixosW 1 dSmallFH dSmallMH
        (fun _ => 1) (fun _ => 1) (fun _ => 1) (fun _ => 1) :=
  c3_reported_cost_is_raw_objective 1 listaCuW fixosW 1 dSmallFH dSmallMH
    (fun _ => 1) (fun _ => 1) (fun _ => 1) (fun _ => 1)
    (fun _ => Or.inr rfl) (fun _ => Or.inr rfl) (fun _ => Or.inr rfl) (fun _ => Or.inr rfl)

/-- C4 counterexample: a facility whose solver value is `0.99` is above the
`0.9` threshold, yet the extractor of `src/main.py` (`varValue == 1`) does not
classify it as open; the `> 0.9` rule only describes `src/unnamed/part_000`. -/
theorem c4_cex :
    (0.9 : ℚ) < 99 / 100
    ∧ 0 ∉ d_ativasV1 1 (fun _ => 99 / 100)
    ∧ 0 ∈ d_ativasV2 1 (fun _ => 99 / 100) := by
  refine ⟨by norm_num, ?_, ?_⟩
  · norm_num [d_ativasV1, List.range_succ]
  · norm_num [d_ativasV2, List.range_succ]

/-- C4 amended: the extractor of `src/unnamed/part_000` classifies a facility
as open and a link as active exactly when its value is strictly greater than
`0.9`, while the extractor of `src/main.py` does so exactly when its value
equals `1`. -/
theorem c4_extraction_thresholds (nRu nDu : Nat) (yv : Nat → ℚ)
    (xv : Nat × Nat → ℚ) (i j : Nat) :
    (j ∈ d_ativasV2 nDu yv ↔ j < nDu ∧ (0.9 : ℚ) < yv j)
    ∧ ((i, j) ∈ conexoesRuDuV2 nRu nDu xv ↔ i < nRu ∧ j < nDu ∧ (0.9 : ℚ) < xv (i, j))
    ∧ (j ∈ d_ativasV1 nDu yv ↔ j < nDu ∧ yv j = 1)
    ∧ ((i, j) ∈ conexoesRuDuV1 nRu nDu xv ↔ i < nRu ∧ j < nDu ∧ xv (i, j) = 1) := by
  refine ⟨?_, ?_, ?_, ?_⟩
  · simp [d_ativasV2, List.mem_filter, List.mem_range]
  · constructor
    · intro hmem
      simp only [conexoesRuDuV2, List.mem_flatMap, List.mem_map, List.mem_filter,
        List.mem_range, decide_eq_true_eq, Prod.mk.injEq] at hmem
      obtain ⟨a, ha, b, ⟨hb, hxb⟩, hai, hbj⟩ := hmem
      subst hai
      subst hbj
      exact ⟨ha, hb, hxb⟩
    · rintro ⟨hi, hj, hx⟩
      simp only [conexoesRuDuV2, List.mem_flatMap, List.mem_map, List.mem_filter,
        List.mem_range, decide_eq_true_eq, Prod.mk.injEq]
      exact ⟨i, hi, j, ⟨hj, hx⟩, rfl, rfl⟩
  · simp [d_ativasV1, List.mem_filter, List.mem_range]
  · constructor
    · intro hmem
      simp only [conexoesRuDuV1, List.mem_filter, List.mem_flatMap, List.mem_map,
        List.mem_range, decide_eq_true_eq, Prod.mk.injEq] at hmem
      obtain ⟨⟨a, ha, b, hb, hai, hbj⟩, hx⟩ := hmem
      subst hai
      subst hbj
      exact ⟨ha, hb, hx⟩
    · rintro ⟨hi, hj, hx⟩
      simp only [conexoesRuDuV1, List.mem_filter, List.mem_flatMap, List.mem_map,
        List.mem_range, decide_eq_true_eq, Prod.mk.injEq]
      exact ⟨⟨i, hi, j, hj, rfl, rfl⟩, hx⟩

/-- C5: in straight-line mode, an RU with no DU candidate within the fronthaul
ceiling is reassigned to the `STI_UFBA` anchor, recorded in the warning list,
and its row is recomputed from the anchor; provided the anchor is one of the
DU candidates (as `candidatos_du.append(LOCAIS_FIXOS["STI_UFBA"])` guarantees)
and is at geodesic distance 0 from itself, every RU ends with at least one DU
candidate within the ceiling. -/
theorem c5_repair_policy (d : Loc → Loc → ℚ) (rus dus : List Loc)
    (hanchor : STI_UFBA ∈ dus) (hzero : d STI_UFBA STI_UFBA = 0) :
    ∀ i, i < rus.length →
      (((buildRuDu d rus dus).2.1.getD i []).any
          (fun q => decide (q ≤ V2.MAX_DIST_FH_METROS)) = true)
      ∧ (ruViable d dus (rus.getD i STI_UFBA) = false →
          (buildRuDu d rus dus).1.getD i STI_UFBA = STI_UFBA
          ∧ i ∈ (buildRuDu d rus dus).2.2
          ∧ (buildRuDu d rus dus).2.1.getD i [] = ruRow d dus STI_UFBA) := by
  intro i hi
  have hrow : (buildRuDu d rus dus).2.1.getD i []
      = ruRow d dus (ruFinalLoc d dus (rus.getD i STI_UFBA)) := by
    rw [buildRuDu_rows]
    exact getD_map _ rus i STI_UFBA [] hi
  constructor
  · rw [hrow]
    by_cases hv : ruViable d dus (rus.getD i STI_UFBA) = true
    · rw [ruFinalLoc_of_viable hv]
      exact hv
    · have hv' : ruViable d dus (rus.getD i STI_UFBA) = false := by simpa using hv
      rw [ruFinalLoc_of_not_viable hv']
      exact ruViable_anchor d dus hanchor hzero
  · intro hv'
    refine ⟨?_, ?_, ?_⟩
    · rw [buildRuDu_lista, if_pos hi, ruFinalLoc_of_not_viable hv']
    · rw [buildRuDu_rep, List.mem_filter]
      exact ⟨List.mem_range.mpr hi, by rw [hv']; rfl⟩
    · rw [hrow, ruFinalLoc_of_not_viable hv']

/-- Witness for C5: RU 0 of `rusW` is repaired and ends with the anchor as a
viable candidate. -/
theorem c5_witness :
    ((buildRuDu dW rusW dusW).2.1.getD 0 []).any
        (fun q => decide (q ≤ V2.MAX_DIST_FH_METROS)) = true
    ∧ (buildRuDu dW rusW dusW).1.getD 0 STI_UFBA = STI_UFBA
    ∧ 0 ∈ (buildRuDu dW rusW dusW).2.2
    ∧ (buildRuDu dW rusW dusW).2.1.getD 0 [] = ruRow dW dusW STI_UFBA := by
  have h := c5_repair_policy dW rusW dusW (by simp [dusW]) (by simp [dW]) 0
    (by norm_num [rusW])
  have hv : ruViable dW dusW (rusW.getD 0 STI_UFBA) = false := by
    norm_num [ruViable, ruRow, dW, rusW, dusW, STI_UFBA, V2.MAX_DIST_FH_METROS]
  obtain ⟨h1, h2⟩ := h
  obtain ⟨h3, h4, h5⟩ := h2 hv
  exact ⟨h1, h3, h4, h5⟩

/-- C6: `get_street_distance` returns the shortest-path length whenever the
road-graph query finds a path, and the sentinel `1e9` whenever the query
reports no path (the caught `NetworkXNoPath` case); being a total function,
it never propagates an exception to its caller. -/
theorem c6_get_street_distance (spl : Nat → Nat → Option ℚ) (node1 node2 : Nat) :
    (∀ l : ℚ, spl node1 node2 = some l → get_street_distance spl node1 node2 = l)
    ∧ (spl node1 node2 = none → get_street_distance spl node1 node2 = 1000000000) := by
  constructor
  · intro l hl
    simp [get_street_distance, hl]
  · intro hn
    simp [get_street_distance, hn]

/-- Witness for C6 on a concrete oracle with one connected and one
disconnected pair. -/
theorem c6_witness :
    get_street_distance splW 0 0 = 0 ∧ get_street_distance splW 0 1 = 1000000000 :=
  ⟨(c6_get_street_distance splW 0 0).1 0 rfl, (c6_get_street_distance splW 0 1).2 rfl⟩

/-- C7 counterexample: on an instance whose only RU has the sentinel distance
to its only DU candidate, the single pre-model check of `src/main.py` (the
node-count check) still passes - the script proceeds to build and solve the
model instead of surfacing a precondition failure before construction. -/
theorem c7_cex :
    mainV1Precheck 3 1 1 1 sentinelRow = true
    ∧ V1.MAX_DIST_FH_METROS < sentinelRow (0, 0) := by
  constructor
  · rfl
  · norm_num [V1.MAX_DIST_FH_METROS, sentinelRow]

/-- C7 amended: `src/main.py` performs no distance-row precondition check; an
RU whose row exceeds the fronthaul ceiling everywhere (as an all-sentinel row
does, since `1e9 > 2000`) makes the constructed model infeasible, and the
failure surfaces only through the post-solve Infeasible branch. -/
theorem c7_sentinel_row_makes_model_infeasible (nRu nDu nCu : Nat)
    (dRD dDC : Nat × Nat → ℚ) (i : Nat) (hi : i < nRu)
    (hrow : ∀ j, j < nDu → V1.MAX_DIST_FH_METROS < dRD (i, j)) (a : Assignment) :
    ¬ FeasibleV1 nRu nDu nCu dRD dDC a :=
  infeasible_of_sentinel_row nRu nDu nCu V1.CAP_DU V1.CAP_CU V1.MAX_DIST_FH_METROS
    V1.MAX_DIST_MH_METROS dRD dDC i hi hrow a

/-- Witness for C7 (amended) at the concrete all-sentinel instance. -/
theorem c7_witness : ¬ FeasibleV1 1 1 1 sentinelRow sentinelRow aAll :=
  c7_sentinel_row_makes_model_infeasible 1 1 1 sentinelRow sentinelRow 0 (by omega)
    (fun j hj => by norm_num [sentinelRow, V1.MAX_DIST_FH_METROS]) aAll

/-- C8: in the objective of `src/unnamed/part_000`, the installation-cost
coefficient of CU candidate `k` (the change in `custo_cus` when `z k` flips
from 0 to 1) is `COSTO_INST_CU_EXISTENTE` exactly when candidate `k`'s
location belongs to `candidatos_cu_fixos`, and `COSTO_INST_CU_NOVA` otherwise. -/
theorem c8_cu_install_coefficient (listaCu fixos : List Loc) (z : Nat → ℚ) (k : Nat)
    (hk : k < listaCu.length) :
    custo_cus listaCu fixos (Function.update z k 1)
      - custo_cus listaCu fixos (Function.update z k 0)
      = if listaCu.getD k STI_UFBA ∈ fixos then V2.COSTO_INST_CU_EXISTENTE
        else V2.COSTO_INST_CU_NOVA := by
  rw [custo_cus_eq_sum, custo_cus_eq_sum]
  exact sum_update_diff
    (fun j => if listaCu.getD j STI_UFBA ∈ fixos then V2.COSTO_INST_CU_EXISTENTE
      else V2.COSTO_INST_CU_NOVA)
    z listaCu.length k hk

/-- Witness for C8: candidate 0 of `listaCuW` is the pre-existing `STI_UFBA`
site, candidate 1 is a new site. -/
theorem c8_witness :
    (custo_cus listaCuW fixosW (Function.update (fun _ => (0 : ℚ)) 0 1)
        - custo_cus listaCuW fixosW (Function.update (fun _ => (0 : ℚ)) 0 0)
      = if listaCuW.getD 0 STI_UFBA ∈ fixosW then V2.COSTO_INST_CU_EXISTENTE
        else V2.COSTO_INST_CU_NOVA)
    ∧ (custo_cus listaCuW fixosW (Function.update (fun _ => (0 : ℚ)) 1 1)
        - custo_cus listaCuW fixosW (Function.update (fun _ => (0 : ℚ)) 1 0)
      = if listaCuW.getD 1 STI_UFBA ∈ fixosW then V2.COSTO_INST_CU_EXISTENTE
        else V2.COSTO_INST_CU_NOVA) :=
  ⟨c8_cu_install_coefficient listaCuW fixosW (fun _ => 0) 0 (by simp [listaCuW]),
   c8_cu_install_coefficient listaCuW fixosW (fun _ => 0) 1 (by simp [listaCuW])⟩

/-- C9: the distance-matrix builder, repair policy included, is a pure
function of the distance metric and the three location lists: two runs on
equal inputs produce equal repaired RU locations, equal RU->DU matrices and
equal DU->CU matrices. -/
theorem c9_builder_deterministic (d1 d2 : Loc → Loc → ℚ)
    (rus1 rus2 dus1 dus2 cus1 cus2 : List Loc)
    (hd : ∀ p q, d1 p q = d2 p q) (hrus : rus1 = rus2) (hdus : dus1 = dus2)
    (hcus : cus1 = cus2) :
    buildMatrices d1 rus1 dus1 cus1 = buildMatrices d2 rus2 dus2 cus2 := by
  have hdd : d1 = d2 := funext fun p => funext fun q => hd p q
  subst hdd
  subst hrus
  subst hdus
  subst hcus
  rfl

/-- Witness for C9 on a concrete input on which the repair fires (RU 0 is
repaired, as the warning list `[0]` shows). -/
theorem c9_witness :
    buildMatrices dW rusW dusW listaCuW = buildMatrices dW rusW dusW listaCuW
    ∧ (buildRuDu dW rusW dusW).2.2 = [0] := by
  refine ⟨c9_builder_deterministic dW dW rusW rusW dusW dusW listaCuW listaCuW
    (fun p q => rfl) rfl rfl rfl, ?_⟩
  norm_num [buildRuDu, rusW, dusW, List.range_succ, processRu, ruViable, ruRow, dW,
    STI_UFBA, V2.MAX_DIST_FH_METROS, List.getD_cons_zero, List.getD_cons_succ, List.getD]

/-- C10: repairing (or arbitrarily relocating) RU `i` changes neither the
distance row nor the final location of any other RU `iOther`; a non-repaired
RU's row keeps the values computed from its original location; and the DU->CU
matrix of the builder is computed solely from the DU and CU candidate lists -
it is unchanged under any change of the RU list. -/
theorem c10_repair_frame (d : Loc → Loc → ℚ) (rus dus cus : List Loc)
    (i iOther : Nat) (v : Loc) (hne : iOther ≠ i) :
    ((buildRuDu d (rus.set i v) dus).2.1.getD iOther []
        = (buildRuDu d rus dus).2.1.getD iOther [])
    ∧ ((buildRuDu d (rus.set i v) dus).1.getD iOther STI_UFBA
        = (buildRuDu d rus dus).1.getD iOther STI_UFBA)
    ∧ (ruViable d dus (rus.getD iOther STI_UFBA) = true → iOther < rus.length →
        (buildRuDu d rus dus).2.1.getD iOther [] = ruRow d dus (rus.getD iOther STI_UFBA))
    ∧ (buildMatrices d (rus.set i v) dus cus).2 = (buildMatrices d rus dus cus).2 := by
  have hgd : (rus.set i v).getD iOther STI_UFBA = rus.getD iOther STI_UFBA :=
    getD_set_ne rus i iOther v STI_UFBA (fun h => hne h.symm)
  refine ⟨?_, ?_, ?_, rfl⟩
  · by_cases hio : iOther < rus.length
    · rw [buildRuDu_rows, buildRuDu_rows,
        getD_map _ (rus.set i v) iOther STI_UFBA [] (by simpa using hio),
        getD_map _ rus iOther STI_UFBA [] hio, hgd]
    · rw [buildRuDu_rows, buildRuDu_rows, List.getD_eq_default, List.getD_eq_default]
      · simpa using hio
      · simpa using hio
  · rw [buildRuDu_lista, buildRuDu_lista, List.length_set]
    by_cases hio : iOther < rus.length
    · rw [if_pos hio, if_pos hio, hgd]
    · rw [if_neg hio, if_neg hio, hgd]
  · intro hv hio
    rw [buildRuDu_rows, getD_map _ rus iOther STI_UFBA [] hio, ruFinalLoc_of_viable hv]

/-- Witness for C10: relocating RU 0 of `rusW` leaves RU 1's row, RU 1's
location and the DU->CU matrix unchanged; RU 1 is viable so its row comes from
its original location. -/
theorem c10_witness :
    ((buildRuDu dW (rusW.set 0 vW) dusW).2.1.getD 1 []
        = (buildRuDu dW rusW dusW).2.1.getD 1 [])
    ∧ ((buildRuDu dW (rusW.set 0 vW) dusW).1.getD 1 STI_UFBA
        = (buildRuDu dW rusW dusW).1.getD 1 STI_UFBA)
    ∧ (buildRuDu dW rusW dusW).2.1.getD 1 [] = ruRow dW dusW (rusW.getD 1 STI_UFBA)
    ∧ (buildMatrices dW (rusW.set 0 vW) dusW listaCuW).2
        = (buildMatrices dW rusW dusW listaCuW).2 := by
  have h := c10_repair_frame dW rusW dusW listaCuW 0 1 vW (by omega)
  refine ⟨h.1, h.2.1, h.2.2.1 ?_ ?_, h.2.2.2⟩
  · norm_num [ruViable, ruRow, rusW, dusW, dW, STI_UFBA, List.getD_cons_succ,
      List.getD_cons_zero, V2.MAX_DIST_FH_METROS]
  · norm_num [rusW]
